import Mathlib

/-!
A verification development for `sync_gradescope.py`, a script that syncs
assignment due dates from a coursework portal to a remote calendar.

The embedding covers the three core components of the source:
* the due-date normalizer `GoogleCalendarClient._parse_date` (a fixed ordered
  list of seven `strptime` formats followed by two regex-extraction fallbacks),
* the calendar reconciler `GoogleCalendarClient.find_event` /
  `GoogleCalendarClient.create_or_update_event` (modelled over an explicit
  calendar state, with the remote free-text search modelled as a substring
  filter and possible remote failures modelled by explicit fault flags),
* the HTML extractors `GradescopeClient.get_courses` /
  `GradescopeClient.get_assignments` (modelled over an explicit HTML tree),
  together with the per-assignment dispatch step of `main`.

Machine-level details that the claims do not touch (network transport, OAuth,
stdout text, the unused assignment-count lookup in `get_courses`) are omitted;
everything else follows the Python line by line.
-/

/-! ## Python string primitives -/

/-- Characters treated as whitespace both by Python `str.strip()` and by the
`\s` class that `_strptime` compiles format-string whitespace into. -/
def isPySpace (c : Char) : Bool :=
  c == ' ' || c == '\t' || c == '\n' || c == '\r' || c == '\x0b' || c == '\x0c'

/-- Python `str.strip()`: remove leading and trailing whitespace. -/
def pyStrip (s : String) : String :=
  ⟨((s.data.dropWhile isPySpace).reverse.dropWhile isPySpace).reverse⟩

/-- Python `str.lower()` restricted to the ASCII inputs in scope. -/
def pyLower (s : String) : String := ⟨s.data.map Char.toLower⟩

/-- Does `pat` start the list `l`? -/
def listStartsWith : List Char → List Char → Bool
  | [], _ => true
  | _ :: _, [] => false
  | p :: ps, c :: cs => p == c && listStartsWith ps cs

/-- Does `pat` occur contiguously inside the list? -/
def listInfix (pat : List Char) : List Char → Bool
  | [] => pat.isEmpty
  | c :: cs => listStartsWith pat (c :: cs) || listInfix pat cs

/-- Python `needle in haystack` for strings: substring containment. -/
def pyContains (haystack needle : String) : Bool :=
  listInfix needle.data haystack.data

/-! ## The due-date normalizer `_parse_date`

`datetime.strptime` compiles a format string to a regex (`_strptime.py`) and
matches it against the whole input.  The directive-level regexes used below:
`%Y` is `\d\d\d\d`; `%m`,`%d`,`%H`,`%I`,`%M`,`%S` are 1-or-2-digit fields that
prefer a two-digit in-range read and fall back to one digit; `%b`/`%B` are
case-insensitive month-name alternations; `%p` is `AM|PM` case-insensitive;
`%z` is `[+-]\d\d:?\d\d(:?\d\d(\.\d{1,6})?)?|Z`; literal whitespace in the
format becomes `\s+`.  A trailing unconverted remainder makes the parse fail,
and the final `datetime(...)` construction validates the field ranges. -/

def digitVal (c : Char) : Nat := c.toNat - 48

def takeDigitsAux : Nat → Nat → List Char → Option (Nat × List Char)
  | 0, acc, cs => some (acc, cs)
  | n + 1, acc, c :: cs =>
    if c.isDigit then takeDigitsAux n (acc * 10 + digitVal c) cs else none
  | _ + 1, _, [] => none

/-- Consume exactly `n` digit characters (e.g. the `\d\d\d\d` of `%Y`). -/
def takeDigits (n : Nat) (cs : List Char) : Option (Nat × List Char) :=
  takeDigitsAux n 0 cs

/-- A 1-or-2-digit numeric strptime field with an inclusive value range
(e.g. `%m` compiles to `1[0-2]|0[1-9]|[1-9]`): a two-digit read is taken when
its value is in range, otherwise a single in-range digit is taken. -/
def take2or1 (lo hi : Nat) : List Char → Option (Nat × List Char)
  | c1 :: c2 :: rest =>
    if c1.isDigit && c2.isDigit && decide (lo ≤ 10 * digitVal c1 + digitVal c2)
        && decide (10 * digitVal c1 + digitVal c2 ≤ hi) then
      some (10 * digitVal c1 + digitVal c2, rest)
    else if c1.isDigit && decide (lo ≤ digitVal c1) && decide (digitVal c1 ≤ hi) then
      some (digitVal c1, c2 :: rest)
    else none
  | [c1] =>
    if c1.isDigit && decide (lo ≤ digitVal c1) && decide (digitVal c1 ≤ hi) then
      some (digitVal c1, [])
    else none
  | [] => none

/-- Match one literal (non-whitespace) format character. -/
def lit (c : Char) : List Char → Option (List Char)
  | c2 :: rest => if c2 = c then some rest else none
  | [] => none

/-- Match format-string whitespace, which `_strptime` compiles to `\s+`. -/
def ws1 : List Char → Option (List Char)
  | c :: rest => if isPySpace c then some (rest.dropWhile isPySpace) else none
  | [] => none

def monthAbbrs : List String :=
  ["jan", "feb", "mar", "apr", "may", "jun", "jul", "aug", "sep", "oct", "nov", "dec"]

def monthFulls : List String :=
  ["january", "february", "march", "april", "may", "june", "july", "august",
   "september", "october", "november", "december"]

/-- Case-insensitive: does the (lowercase) pattern start the input?  Returns
the remainder on success. -/
def ciStarts : List Char → List Char → Option (List Char)
  | [], cs => some cs
  | p :: ps, c :: cs => if p = c.toLower then ciStarts ps cs else none
  | _ :: _, [] => none

/-- Match one month name from `names`, returning its 1-based index. -/
def matchMonthAux : List String → Nat → List Char → Option (Nat × List Char)
  | [], _, _ => none
  | n :: rest, i, cs =>
    match ciStarts n.data cs with
    | some cs2 => some (i + 1, cs2)
    | none => matchMonthAux rest (i + 1) cs

/-- The `%p` directive: `AM` or `PM`, case-insensitive; `true` means PM. -/
def parseAmPm (cs : List Char) : Option (Bool × List Char) :=
  match ciStarts "am".data cs with
  | some rest => some (false, rest)
  | none =>
    match ciStarts "pm".data cs with
    | some rest => some (true, rest)
    | none => none

/-- Consume at most `n` further digits (the greedy `\d{1,6}` fraction tail). -/
def dropAtMostDigits : Nat → List Char → List Char
  | 0, cs => cs
  | n + 1, c :: rest => if c.isDigit then dropAtMostDigits n rest else c :: rest
  | _ + 1, [] => []

/-- An optional fraction `(\.\d{1,6})?` after the seconds of a `%z` offset. -/
def parseZFrac : List Char → List Char
  | '.' :: c :: rest =>
    if c.isDigit then dropAtMostDigits 5 rest else '.' :: c :: rest
  | cs => cs

/-- The `%z` directive: `[+-]\d\d:?\d\d(:?\d\d(\.\d{1,6})?)?` or literal `Z`,
yielding a UTC offset in seconds.  As in CPython, a fraction is consumed but
its value plays no role here, and an offset of 24 hours or more fails (the
`timezone` constructor raises `ValueError`, failing this format). -/
def parseZ (cs : List Char) : Option (Int × List Char) :=
  match cs with
  | 'Z' :: rest => some (0, rest)
  | sign :: rest =>
    if sign = '+' || sign = '-' then
      match takeDigits 2 rest with
      | none => none
      | some (hh, r1) =>
        match (match r1 with
               | ':' :: r => takeDigits 2 r
               | _ => takeDigits 2 r1) with
        | none => none
        | some (mm, r2) =>
          let secPart : Nat × List Char :=
            match r2 with
            | ':' :: r =>
              (match takeDigits 2 r with
               | some (s2, rr) => (s2, parseZFrac rr)
               | none => (0, r2))
            | _ =>
              (match takeDigits 2 r2 with
               | some (s2, rr) => (s2, parseZFrac rr)
               | none => (0, r2))
          let total : Int := (hh * 3600 + mm * 60 + secPart.1 : Nat)
          if total < 86400 then
            some (if sign = '-' then -total else total, secPart.2)
          else none
    else none
  | [] => none

/-- The result of a successful parse: naive calendar fields plus the UTC
offset in seconds when the text carried one (`%z`), as in a Python
`datetime` with optional `tzinfo`. -/
structure DateTime where
  year : Nat
  month : Nat
  day : Nat
  hour : Nat
  minute : Nat
  second : Nat
  tzOffset : Option Int
deriving DecidableEq, Repr

def isLeapYear (y : Nat) : Bool :=
  y % 4 == 0 && (y % 100 != 0 || y % 400 == 0)

def daysInMonth (y m : Nat) : Nat :=
  if m == 2 then (if isLeapYear y then 29 else 28)
  else if m == 4 || m == 6 || m == 9 || m == 11 then 30
  else 31

/-- The range validation done by the `datetime(...)` constructor in which
`datetime.strptime` ends; an out-of-range field raises `ValueError`, which
`_parse_date` turns into trying the next format. -/
def mkDT (y mo d h mi s : Nat) (tz : Option Int) : Option DateTime :=
  if 1 ≤ y ∧ y ≤ 9999 ∧ 1 ≤ mo ∧ mo ≤ 12 ∧ 1 ≤ d ∧ d ≤ daysInMonth y mo
      ∧ h ≤ 23 ∧ mi ≤ 59 ∧ s ≤ 59 then
    some ⟨y, mo, d, h, mi, s, tz⟩
  else none

/-- The strptime conversion of a `%I` hour under a `%p` marker. -/
def hourFrom12 (h12 : Nat) (pm : Bool) : Nat :=
  h12 % 12 + (if pm then 12 else 0)

/-- strptime with `"%Y-%m-%dT%H:%M:%S%z"` (ISO format with timezone). -/
def fmtIsoTz (s : String) : Option DateTime := do
  let (y, r) ← takeDigits 4 s.data
  let r ← lit '-' r
  let (mo, r) ← take2or1 1 12 r
  let r ← lit '-' r
  let (d, r) ← take2or1 1 31 r
  let r ← lit 'T' r
  let (h, r) ← take2or1 0 23 r
  let r ← lit ':' r
  let (mi, r) ← take2or1 0 59 r
  let r ← lit ':' r
  let (sec, r) ← take2or1 0 61 r
  let (tz, r) ← parseZ r
  if r = [] then mkDT y mo d h mi sec (some tz) else none

/-- strptime with `"%Y-%m-%dT%H:%M:%S"` (ISO format without timezone). -/
def fmtIso (s : String) : Option DateTime := do
  let (y, r) ← takeDigits 4 s.data
  let r ← lit '-' r
  let (mo, r) ← take2or1 1 12 r
  let r ← lit '-' r
  let (d, r) ← take2or1 1 31 r
  let r ← lit 'T' r
  let (h, r) ← take2or1 0 23 r
  let r ← lit ':' r
  let (mi, r) ← take2or1 0 59 r
  let r ← lit ':' r
  let (sec, r) ← take2or1 0 61 r
  if r = [] then mkDT y mo d h mi sec none else none

/-- strptime with `"%b %d, %Y %I:%M %p"` ("Jan 15, 2026 11:59 PM"). -/
def fmtMonthAbbr (s : String) : Option DateTime := do
  let (mo, r) ← matchMonthAux monthAbbrs 0 s.data
  let r ← ws1 r
  let (d, r) ← take2or1 1 31 r
  let r ← lit ',' r
  let r ← ws1 r
  let (y, r) ← takeDigits 4 r
  let r ← ws1 r
  let (h12, r) ← take2or1 1 12 r
  let r ← lit ':' r
  let (mi, r) ← take2or1 0 59 r
  let r ← ws1 r
  let (pm, r) ← parseAmPm r
  if r = [] then mkDT y mo d (hourFrom12 h12 pm) mi 0 none else none

/-- strptime with `"%b %d, %Y at %I:%M %p"` ("Jan 15, 2026 at 11:59 PM"). -/
def fmtMonthAbbrAt (s : String) : Option DateTime := do
  let (mo, r) ← matchMonthAux monthAbbrs 0 s.data
  let r ← ws1 r
  let (d, r) ← take2or1 1 31 r
  let r ← lit ',' r
  let r ← ws1 r
  let (y, r) ← takeDigits 4 r
  let r ← ws1 r
  let r ← lit 'a' r
  let r ← lit 't' r
  let r ← ws1 r
  let (h12, r) ← take2or1 1 12 r
  let r ← lit ':' r
  let (mi, r) ← take2or1 0 59 r
  let r ← ws1 r
  let (pm, r) ← parseAmPm r
  if r = [] then mkDT y mo d (hourFrom12 h12 pm) mi 0 none else none

/-- strptime with `"%B %d, %Y %I:%M %p"` ("January 15, 2026 11:59 PM"). -/
def fmtMonthFull (s : String) : Option DateTime := do
  let (mo, r) ← matchMonthAux monthFulls 0 s.data
  let r ← ws1 r
  let (d, r) ← take2or1 1 31 r
  let r ← lit ',' r
  let r ← ws1 r
  let (y, r) ← takeDigits 4 r
  let r ← ws1 r
  let (h12, r) ← take2or1 1 12 r
  let r ← lit ':' r
  let (mi, r) ← take2or1 0 59 r
  let r ← ws1 r
  let (pm, r) ← parseAmPm r
  if r = [] then mkDT y mo d (hourFrom12 h12 pm) mi 0 none else none

/-- strptime with `"%m/%d/%Y %I:%M %p"` ("01/15/2026 11:59 PM"). -/
def fmtNumeric (s : String) : Option DateTime := do
  let (mo, r) ← take2or1 1 12 s.data
  let r ← lit '/' r
  let (d, r) ← take2or1 1 31 r
  let r ← lit '/' r
  let (y, r) ← takeDigits 4 r
  let r ← ws1 r
  let (h12, r) ← take2or1 1 12 r
  let r ← lit ':' r
  let (mi, r) ← take2or1 0 59 r
  let r ← ws1 r
  let (pm, r) ← parseAmPm r
  if r = [] then mkDT y mo d (hourFrom12 h12 pm) mi 0 none else none

/-- strptime with `"%Y-%m-%d %H:%M:%S %z"` ("2026-01-15 23:59:00 -0800"). -/
def fmtIsoSpaceTz (s : String) : Option DateTime := do
  let (y, r) ← takeDigits 4 s.data
  let r ← lit '-' r
  let (mo, r) ← take2or1 1 12 r
  let r ← lit '-' r
  let (d, r) ← take2or1 1 31 r
  let r ← ws1 r
  let (h, r) ← take2or1 0 23 r
  let r ← lit ':' r
  let (mi, r) ← take2or1 0 59 r
  let r ← lit ':' r
  let (sec, r) ← take2or1 0 61 r
  let r ← ws1 r
  let (tz, r) ← parseZ r
  if r = [] then mkDT y mo d h mi sec (some tz) else none

/-- The fixed, ordered list `formats` of `_parse_date`, in source order. -/
def pyFormats : List (String → Option DateTime) :=
  [fmtIsoTz, fmtIso, fmtMonthAbbr, fmtMonthAbbrAt, fmtMonthFull, fmtNumeric,
   fmtIsoSpaceTz]

/-- Python `\w` restricted to the ASCII inputs in scope. -/
def isWordChar (c : Char) : Bool := c.isAlphanum || c == '_'

/-- Try `\w+ \d+, \d{4} \d+:\d+ [AP]M` anchored at the front of the input,
returning the remaining characters on success. -/
def matchLongFormAt (cs : List Char) : Option (List Char) := do
  let (w, r) := cs.span isWordChar
  if w = [] then none else do
  let r ← lit ' ' r
  let (d1, r) := r.span Char.isDigit
  if d1 = [] then none else do
  let r ← lit ',' r
  let r ← lit ' ' r
  let (_, r) ← takeDigits 4 r
  let r ← lit ' ' r
  let (d2, r) := r.span Char.isDigit
  if d2 = [] then none else do
  let r ← lit ':' r
  let (d3, r) := r.span Char.isDigit
  if d3 = [] then none else do
  let r ← lit ' ' r
  match r with
  | a :: 'M' :: rest => if a = 'A' || a = 'P' then some rest else none
  | _ => none

/-- Try `\d{4}-\d{2}-\d{2}T\d{2}:\d{2}:\d{2}` anchored at the front of the
input, returning the remaining characters on success. -/
def matchIsoAt (cs : List Char) : Option (List Char) := do
  let (_, r) ← takeDigits 4 cs
  let r ← lit '-' r
  let (_, r) ← takeDigits 2 r
  let r ← lit '-' r
  let (_, r) ← takeDigits 2 r
  let r ← lit 'T' r
  let (_, r) ← takeDigits 2 r
  let r ← lit ':' r
  let (_, r) ← takeDigits 2 r
  let r ← lit ':' r
  let (_, r) ← takeDigits 2 r
  some r

/-- Python `re.search`: try the anchored matcher at every start position from
the left; on the first success return the matched substring (for the two
patterns of `_parse_date`, group 1 is the whole match). -/
def searchWith (matchAt : List Char → Option (List Char)) : List Char → Option String
  | [] => none
  | c :: cs =>
    match matchAt (c :: cs) with
    | some rest => some ⟨(c :: cs).take ((c :: cs).length - rest.length)⟩
    | none => searchWith matchAt cs

/-- `re.search(r"(\w+ \d+, \d{4} \d+:\d+ [AP]M)", s)`, first fallback pattern. -/
def regexSearch1 (s : String) : Option String := searchWith matchLongFormAt s.data

/-- `re.search(r"(\d{4}-\d{2}-\d{2}T\d{2}:\d{2}:\d{2})", s)`, second fallback
pattern. -/
def regexSearch2 (s : String) : Option String := searchWith matchIsoAt s.data

/-- The body of `_parse_date` past the falsy-input check: the seven formats
are tried in order against the stripped input, and if all fail, each of the
two regex patterns in turn extracts a candidate substring that is re-tried
against the full format list. -/
def _parse_date_str (s : String) : Option DateTime :=
  if s = "" then none
  else
    match pyFormats.findSome? (fun f => f (pyStrip s)) with
    | some d => some d
    | none =>
      [regexSearch1, regexSearch2].findSome? (fun srch =>
        match srch s with
        | some g => pyFormats.findSome? (fun f => f g)
        | none => none)

/-- Shallow embedding of `GoogleCalendarClient._parse_date`: a falsy input
(absent, or the empty string) yields `none` at once (`if not date_str`);
`none` throughout models Python `None`. -/
def _parse_date : Option String → Option DateTime
  | none => none
  | some s => _parse_date_str s

example : _parse_date (some "Jan 15, 2026 11:59 PM") =
    some ⟨2026, 1, 15, 23, 59, 0, none⟩ := by decide
example : _parse_date (some "2026-01-15T23:59:00-0800") =
    some ⟨2026, 1, 15, 23, 59, 0, some (-28800)⟩ := by decide
example : _parse_date (some "2026-01-15T23:59:00") =
    some ⟨2026, 1, 15, 23, 59, 0, none⟩ := by decide
example : _parse_date (some "Jan 15, 2026 at 11:59 PM") =
    some ⟨2026, 1, 15, 23, 59, 0, none⟩ := by decide
example : _parse_date (some "January 15, 2026 11:59 PM") =
    some ⟨2026, 1, 15, 23, 59, 0, none⟩ := by decide
example : _parse_date (some "01/15/2026 11:59 PM") =
    some ⟨2026, 1, 15, 23, 59, 0, none⟩ := by decide
example : _parse_date (some "2026-01-15 23:59:00 -0800") =
    some ⟨2026, 1, 15, 23, 59, 0, some (-28800)⟩ := by decide
example : _parse_date (some "gibberish") = none := by decide
example : _parse_date (some "") = none := by decide
example : _parse_date none = none := by decide
example : _parse_date (some "Due: Jan 15, 2026 11:59 PM") =
    some ⟨2026, 1, 15, 23, 59, 0, none⟩ := by decide
example : _parse_date (some "  2026-01-15T23:59:00  ") =
    some ⟨2026, 1, 15, 23, 59, 0, none⟩ := by decide
example : _parse_date (some "Late Due Date: 2026-01-15T23:59:00 xx") =
    some ⟨2026, 1, 15, 23, 59, 0, none⟩ := by decide
example : _parse_date (some "12/31/2026 12:00 AM") =
    some ⟨2026, 12, 31, 0, 0, 0, none⟩ := by decide
example : _parse_date (some "Feb 30, 2026 11:59 PM") = none := by decide
example : _parse_date (some "May 15, 2026 11:59 PM") =
    some ⟨2026, 5, 15, 23, 59, 0, none⟩ := by decide

/-! ## The calendar reconciler

`GoogleCalendarClient` is modelled over an explicit calendar state: the list
of remote events in their stored order, plus a counter supplying fresh event
identifiers on insert.  The remote `events().list(q=..., maxResults=10)`
free-text search is modelled as a substring filter over summary and
description in stored order, truncated to the first 10 items.  Remote
failures are modelled by explicit fault flags: a raising `events().list` is
the only call whose exception the source catches (inside `find_event`). -/

structure GEvent where
  eid : Nat
  summary : String
  description : String
  startTime : DateTime
  endTime : DateTime
  location : Option String
deriving DecidableEq, Repr

structure CalState where
  events : List GEvent
  nextId : Nat
deriving DecidableEq, Repr

structure ServiceFaults where
  listRaises : Bool
  insertRaises : Bool
  updateRaises : Bool
deriving DecidableEq, Repr

def noFaults : ServiceFaults := ⟨false, false, false⟩

/-- The observable interactions of one reconciliation: remote calls issued,
and the warning printed when the search raised. -/
inductive Effect where
  | listCall (q : String)
  | warnSearch
  | insertCall
  | updateCall (eid : Nat)
deriving DecidableEq, Repr

/-- The `action` field of the dict returned by `create_or_update_event`. -/
inductive ReconcileAction where
  | created
  | updated
deriving DecidableEq, Repr

/-- The remote free-text search predicate: the query occurs as a substring of
the event summary or description. -/
def fuzzyMatch (q : String) (e : GEvent) : Bool :=
  pyContains e.summary q || pyContains e.description q

/-- Shallow embedding of `GoogleCalendarClient.find_event`: list up to 10
events loosely matching the title, return the first whose summary equals it
exactly; any exception from the remote search is caught, a warning printed,
and `none` returned. -/
def find_event (sv : ServiceFaults) (title : String) (cal : CalState) :
    Option GEvent × List Effect :=
  if sv.listRaises then (none, [.listCall title, .warnSearch])
  else
    (((cal.events.filter (fuzzyMatch title)).take 10).find? (fun e => e.summary == title),
     [.listCall title])

/-- The `location` entry is added to the event body only when non-empty. -/
def locOpt (location : String) : Option String :=
  if location = "" then none else some location

/-- `events().insert`: append a fresh event built from the event body
(start and end both equal to the parsed timestamp). -/
def insertEvent (cal : CalState) (title description location : String)
    (dt : DateTime) : CalState :=
  ⟨cal.events ++ [⟨cal.nextId, title, description, dt, dt, locOpt location⟩],
   cal.nextId + 1⟩

/-- `events().update`: replace the body of the event with the given id. -/
def updateEvent (cal : CalState) (eid : Nat) (title description location : String)
    (dt : DateTime) : CalState :=
  ⟨cal.events.map (fun e =>
     if e.eid == eid then ⟨e.eid, title, description, dt, dt, locOpt location⟩ else e),
   cal.nextId⟩

/-- Shallow embedding of `GoogleCalendarClient.create_or_update_event`: an
unparseable due date returns `None` (after a warning) before any remote call;
otherwise the title is looked up and the event updated in place when found,
inserted when not.  `.error` models an uncaught exception from the insert or
update call propagating to the caller. -/
def create_or_update_event (sv : ServiceFaults)
    (title due_date description location : String) (cal : CalState) :
    Except Unit (Option ReconcileAction × CalState × List Effect) :=
  match _parse_date (some due_date) with
  | none => .ok (none, cal, [])
  | some dt =>
    match find_event sv title cal with
    | (some existing, tr) =>
      if sv.updateRaises then .error ()
      else .ok (some .updated, updateEvent cal existing.eid title description location dt,
                tr ++ [.updateCall existing.eid])
    | (none, tr) =>
      if sv.insertRaises then .error ()
      else .ok (some .created, insertEvent cal title description location dt,
                tr ++ [.insertCall])

/-- The `action` of a reconciliation result (`none` for a skip or error). -/
def resultAction : Except Unit (Option ReconcileAction × CalState × List Effect) → Option ReconcileAction
  | .ok (a, _, _) => a
  | .error _ => none

/-- The calendar state after a reconciliation result. -/
def resultCal (dflt : CalState) : Except Unit (Option ReconcileAction × CalState × List Effect) → CalState
  | .ok (_, c, _) => c
  | .error _ => dflt

/-! ## Records and the per-assignment step of `main` -/

def GRADESCOPE_BASE_URL : String := "https://www.gradescope.com"

structure Course where
  id : String
  short_name : String
  full_name : String
  url : String
deriving DecidableEq, Repr

structure Assignment where
  name : String
  id : Option String
  due_date : Option String
  url : Option String
deriving DecidableEq, Repr

/-- How `main` accounts for one assignment. -/
inductive SyncOutcome where
  | skippedNoDue
  | createdOut
  | updatedOut
  | skippedUnparseable
deriving DecidableEq, Repr

/-- The per-assignment body of the loop in `main`: a falsy due date (absent
or empty string) is skipped with no reconciliation; otherwise the event title
and description are built and `create_or_update_event` is called, its result
classified for the final counts. -/
def processAssignment (sv : ServiceFaults) (course : Course) (a : Assignment)
    (cal : CalState) : Except Unit (SyncOutcome × CalState × List Effect) :=
  match a.due_date with
  | none => .ok (.skippedNoDue, cal, [])
  | some ds =>
    if ds = "" then .ok (.skippedNoDue, cal, [])
    else
      let title := a.name ++ " - " ++ course.short_name
      let description := "Course: " ++ course.full_name ++ "\n" ++
        (match a.url with | some u => "Link: " ++ u | none => "")
      match create_or_update_event sv title ds description "" cal with
      | .error e => .error e
      | .ok (none, cal2, tr) => .ok (.skippedUnparseable, cal2, tr)
      | .ok (some .created, cal2, tr) => .ok (.createdOut, cal2, tr)
      | .ok (some .updated, cal2, tr) => .ok (.updatedOut, cal2, tr)

/-! ## The HTML extractor

Server-rendered HTML is modelled as a tree of elements (tag, attributes,
children) and text nodes.  BeautifulSoup `find_all` / `find` enumerate the
element descendants of a node in document (pre-)order, excluding the node
itself; `get_text(strip=True)` concatenates the stripped text fragments. -/

inductive Html where
  | elem (tag : String) (attrs : List (String × String)) (children : List Html)
  | text (s : String)
deriving Repr

mutual

/-- All element descendants of a node, in document order, self excluded. -/
def Html.elemDescendants : Html → List Html
  | .text _ => []
  | .elem _ _ cs => Html.elemDescendantsList cs

def Html.elemDescendantsList : List Html → List Html
  | [] => []
  | h :: t =>
    (match h with
     | .elem _ _ _ => [h]
     | .text _ => []) ++ h.elemDescendants ++ Html.elemDescendantsList t

end

mutual

/-- BeautifulSoup `get_text(strip=True)`: concatenate the stripped text
fragments below a node. -/
def Html.getTextStrip : Html → String
  | .text s => pyStrip s
  | .elem _ _ cs => Html.getTextStripList cs

def Html.getTextStripList : List Html → String
  | [] => ""
  | h :: t => h.getTextStrip ++ Html.getTextStripList t

end

def Html.tag : Html → String
  | .elem t _ _ => t
  | .text _ => ""

/-- Tag `.get(name)`: the attribute value, or `none` when absent. -/
def Html.getAttr : Html → String → Option String
  | .elem _ attrs _, name => attrs.lookup name
  | .text _, _ => none

/-- BeautifulSoup `find`: the first element descendant satisfying `p`. -/
def Html.findElem (h : Html) (p : Html → Bool) : Option Html :=
  h.elemDescendants.find? p

/-- Python `str.split(sep)` for a one-character separator: the pieces between
occurrences of `sep`, empty pieces preserved. -/
def splitOnCharAux (sep : Char) : List Char → List Char → List String
  | [], acc => [⟨acc.reverse⟩]
  | c :: cs, acc =>
    if c = sep then (⟨acc.reverse⟩ : String) :: splitOnCharAux sep cs []
    else splitOnCharAux sep cs (c :: acc)

def pySplit (sep : Char) (s : String) : List String := splitOnCharAux sep s.data []

/-- The last element of a list of strings (Python `split("/")[-1]`; `split`
never returns an empty list). -/
def lastSegment : List String → String
  | [] => ""
  | [x] => x
  | _ :: x :: rest => lastSegment (x :: rest)

/-- Match an exact literal at the front of the input, returning the rest. -/
def litStr : List Char → List Char → Option (List Char)
  | [], cs => some cs
  | p :: ps, c :: cs => if c = p then litStr ps cs else none
  | _ :: _, [] => none

/-- `re.compile(r"/courses/\d+")` used as a BeautifulSoup attribute filter
(`re.search` semantics): the href contains `/courses/` followed by a digit. -/
def searchCoursesHref : List Char → Bool
  | [] => false
  | c :: cs =>
    (match litStr "/courses/".data (c :: cs) with
     | some (d :: _) => d.isDigit
     | _ => false) || searchCoursesHref cs

/-- `re.search(r"/assignments/(\d+)", href)`: the digit run following the
first occurrence of `/assignments/` that is followed by at least one digit. -/
def searchAssignmentId : List Char → Option String
  | [] => none
  | c :: cs =>
    match litStr "/assignments/".data (c :: cs) with
    | some rest =>
      let ds := rest.takeWhile Char.isDigit
      if ds = [] then searchAssignmentId cs else some ⟨ds⟩
    | none => searchAssignmentId cs

def isHeadingElem (e : Html) : Bool :=
  e.tag == "h3" || e.tag == "h4" || e.tag == "heading"

/-- BeautifulSoup `find("div", class_=re.compile(r"courseBox--name|name"))`:
a div one of whose class tokens matches the regex under `re.search`. -/
def isNameDiv (e : Html) : Bool :=
  e.tag == "div" &&
    (match e.getAttr "class" with
     | some cls => (pySplit ' ' cls).any (fun tok =>
         pyContains tok "courseBox--name" || pyContains tok "name")
     | none => false)

def isCourseAnchor (e : Html) : Bool :=
  e.tag == "a" &&
    (match e.getAttr "href" with
     | some href => searchCoursesHref href.data
     | none => false)

/-- The per-link body of the `get_courses` loop: course id from the last path
segment, short name from a nested heading (placeholder when absent), full
name from a class-matched div (short name when absent). -/
def extractCourse (link : Html) : Course :=
  let href := (link.getAttr "href").getD ""
  let course_id := lastSegment (pySplit '/' href)
  let short_name :=
    match link.findElem isHeadingElem with
    | some h => h.getTextStrip
    | none => "Unknown Course"
  let full_name :=
    match link.findElem isNameDiv with
    | some d => d.getTextStrip
    | none => short_name
  ⟨course_id, short_name, full_name, GRADESCOPE_BASE_URL ++ href⟩

/-- Shallow embedding of `GradescopeClient.get_courses` over the parsed
account page. -/
def get_courses (soup : Html) : List Course :=
  (soup.elemDescendants.filter isCourseAnchor).map extractCourse

/-- `soup.find_all("tr", role="row")`. -/
def trRows (soup : Html) : List Html :=
  soup.elemDescendants.filter (fun e => e.tag == "tr" && e.getAttr "role" == some "row")

/-- `row.find_all(["th", "td"])`. -/
def rowCells (row : Html) : List Html :=
  row.elemDescendants.filter (fun e => e.tag == "th" || e.tag == "td")

/-- Try `\d{1,2}:\d{2}` anchored at the front of the input. -/
def timePatAt : List Char → Bool
  | a :: b :: rest =>
    if a.isDigit && b.isDigit then
      (match rest with
       | ':' :: d :: e :: _ => d.isDigit && e.isDigit
       | _ => false)
    else if a.isDigit && b == ':' then
      (match rest with
       | d :: e :: _ => d.isDigit && e.isDigit
       | _ => false)
    else false
  | _ => false

/-- `re.search(r"\d{1,2}:\d{2}", s)`: a time-of-day pattern somewhere in the
text. -/
def hasTimeOfDay : List Char → Bool
  | [] => false
  | c :: cs => timePatAt (c :: cs) || hasTimeOfDay cs

/-- The body of the due-date heuristic loop: a cell yields its text when the
text contains a time-of-day pattern or the substring "due" case-insensitively. -/
def heurSome (cell : Html) : Option String :=
  let t := cell.getTextStrip
  if hasTimeOfDay t.data || pyContains (pyLower t) "due" then some t else none

/-- The heuristic scan over `cells[1:]`: the text of the first matching cell. -/
def heuristicDue (cells : List Html) : Option String :=
  (cells.drop 1).findSome? heurSome

/-- The due-date text selected for a row: the heuristic scan result, which a
`<time>` element of the row, when present, always overwrites with
`time_elem.get("datetime") or time_elem.get_text(strip=True)` — the
`datetime` attribute when truthy (present and non-empty), else the visible
text. -/
def dueDateOf (row : Html) (cells : List Html) : Option String :=
  match row.findElem (fun e => e.tag == "time") with
  | some te =>
    some (match te.getAttr "datetime" with
          | some v => if v = "" then te.getTextStrip else v
          | none => te.getTextStrip)
  | none => heuristicDue cells

/-- The body of the `get_assignments` loop past the cell-count guard, as a
function of the first cell's link lookup (`cells[0].find("a")`): no link
skips the row; otherwise the record is built from the link text, the id
pattern in its href, and the row's selected due-date text. -/
def rowAssignFrom (row : Html) (cells : List Html) : Option Html → Option Assignment
  | none => none
  | some name_link =>
    let name := name_link.getTextStrip
    let href := (name_link.getAttr "href").getD ""
    some ⟨name, searchAssignmentId href.data, dueDateOf row cells,
          if href = "" then none else some (GRADESCOPE_BASE_URL ++ href)⟩

/-- The per-row body of the `get_assignments` loop; `none` means the row is
skipped (fewer than three cells, or no link inside the first cell). -/
def rowToAssignment (row : Html) : Option Assignment :=
  match rowCells row with
  | c0 :: c1 :: c2 :: rest =>
    rowAssignFrom row (c0 :: c1 :: c2 :: rest) (c0.findElem (fun e => e.tag == "a"))
  | _ => none

/-- Shallow embedding of `GradescopeClient.get_assignments` over the parsed
course page. -/
def get_assignments (soup : Html) : List Assignment :=
  (trRows soup).filterMap rowToAssignment

example :
    get_assignments (.elem "table" [] [
      .elem "tr" [("role", "row")] [
        .elem "th" [] [.elem "a" [("href", "/courses/1/assignments/42")] [.text " HW 1 "]],
        .elem "td" [] [.text "Submitted"],
        .elem "td" [] [.text "Due 11:59 PM"]]]) =
    [⟨"HW 1", some "42", some "Due 11:59 PM",
      some "https://www.gradescope.com/courses/1/assignments/42"⟩] := by decide

example :
    get_assignments (.elem "table" [] [
      .elem "tr" [("role", "row")] [
        .elem "th" [] [.elem "a" [("href", "/courses/1/assignments/42")] [.text "HW 1"]],
        .elem "td" [] [.text "Due 11:59 PM"],
        .elem "td" [] [.elem "time" [("datetime", "2026-01-15T23:59:00")] [.text "Jan 15"]]]]) =
    [⟨"HW 1", some "42", some "2026-01-15T23:59:00",
      some "https://www.gradescope.com/courses/1/assignments/42"⟩] := by decide

example :
    get_courses (.elem "body" [] [
      .elem "a" [("href", "/courses/123")] [
        .elem "h3" [] [.text "CS 101"],
        .elem "div" [("class", "courseBox--name")] [.text "Intro to CS"]],
      .elem "a" [("href", "/about")] [.text "About"]]) =
    [⟨"123", "CS 101", "Intro to CS", "https://www.gradescope.com/courses/123"⟩] := by decide

example :
    get_courses (.elem "body" [] [
      .elem "a" [("href", "/courses/123")] [.text "bare link"]]) =
    [⟨"123", "Unknown Course", "Unknown Course", "https://www.gradescope.com/courses/123"⟩] := by
  decide

example :
    find_event noFaults "HW 1 - CS 101"
      ⟨[⟨0, "HW 1 - CS 101", "", ⟨2026, 1, 15, 23, 59, 0, none⟩, ⟨2026, 1, 15, 23, 59, 0, none⟩, none⟩], 1⟩ =
    (some ⟨0, "HW 1 - CS 101", "", ⟨2026, 1, 15, 23, 59, 0, none⟩, ⟨2026, 1, 15, 23, 59, 0, none⟩, none⟩,
     [.listCall "HW 1 - CS 101"]) := by decide

example :
    resultAction (create_or_update_event noFaults "HW 1" "2026-01-15T23:59:00" "" "" ⟨[], 0⟩) =
      some .created := by decide

/-! ## Helper lemmas -/

theorem listStartsWith_refl : ∀ l : List Char, listStartsWith l l = true
  | [] => rfl
  | c :: cs => by simp [listStartsWith, listStartsWith_refl cs]

theorem listInfix_refl (l : List Char) : listInfix l l = true := by
  cases l with
  | nil => rfl
  | cons c cs => simp [listInfix, listStartsWith_refl]

theorem fuzzyMatch_of_summary_eq (title : String) (e : GEvent)
    (h : e.summary = title) : fuzzyMatch title e = true := by
  simp [fuzzyMatch, pyContains, h, listInfix_refl]

theorem findSome?_eq_of_first {α β : Type} (g : α → Option β) :
    ∀ (l : List α) (i : Nat) (hi : i < l.length) (d : β),
      g (l.get ⟨i, hi⟩) = some d →
      (∀ j (hj : j < l.length), j < i → g (l.get ⟨j, hj⟩) = none) →
      l.findSome? g = some d := by
  intro l
  induction l with
  | nil => intro i hi; simp at hi
  | cons a t ih =>
    intro i hi d hget hprev
    cases i with
    | zero =>
      have ha : g a = some d := hget
      simp [List.findSome?, ha]
    | succ k =>
      have ha : g a = none := hprev 0 (by simp) (Nat.succ_pos k)
      have ht : t.findSome? g = some d := by
        refine ih k (by simpa using hi) d hget ?_
        intro j hj hjk
        exact hprev (j + 1) (by simpa using hj) (Nat.succ_lt_succ hjk)
      simp [List.findSome?, ha, ht]

theorem find?_append_last {α : Type} (p : α → Bool) :
    ∀ (l : List α) (x : α), (∀ y ∈ l, p y = false) → p x = true →
      (l ++ [x]).find? p = some x := by
  intro l
  induction l with
  | nil => intro x _ hx; simp [List.find?, hx]
  | cons a t ih =>
    intro x h hx
    have ha : p a = false := h a (by simp)
    simp only [List.cons_append, List.find?, ha]
    exact ih x (fun y hy => h y (by simp [hy])) hx

theorem filter_eq_nil_of {α : Type} (p : α → Bool) :
    ∀ l : List α, (∀ x ∈ l, p x = false) → l.filter p = [] := by
  intro l
  induction l with
  | nil => intro; rfl
  | cons a t ih =>
    intro h
    simp [List.filter, h a (by simp), ih (fun x hx => h x (by simp [hx]))]

theorem map_eq_self_of {α : Type} (f : α → α) :
    ∀ l : List α, (∀ x ∈ l, f x = x) → l.map f = l := by
  intro l
  induction l with
  | nil => intro; rfl
  | cons a t ih =>
    intro h
    simp [h a (by simp), ih (fun x hx => h x (by simp [hx]))]

/-! ## Claims about the due-date normalizer -/

/-- C9: for an input in each of the supported formats, `_parse_date` returns
a timestamp whose calendar fields equal the fields written literally in the
input; in particular "Jan 15, 2026 11:59 PM" yields year 2026, month 1,
day 15, hour 23, minute 59. -/
theorem parse_date_literal_fields :
    _parse_date (some "Jan 15, 2026 11:59 PM") = some ⟨2026, 1, 15, 23, 59, 0, none⟩ ∧
    _parse_date (some "2026-01-15T23:59:00-0800") =
      some ⟨2026, 1, 15, 23, 59, 0, some (-28800)⟩ ∧
    _parse_date (some "2026-01-15T23:59:00") = some ⟨2026, 1, 15, 23, 59, 0, none⟩ ∧
    _parse_date (some "Jan 15, 2026 at 11:59 PM") = some ⟨2026, 1, 15, 23, 59, 0, none⟩ ∧
    _parse_date (some "January 15, 2026 11:59 PM") = some ⟨2026, 1, 15, 23, 59, 0, none⟩ ∧
    _parse_date (some "01/15/2026 11:59 PM") = some ⟨2026, 1, 15, 23, 59, 0, none⟩ ∧
    _parse_date (some "2026-01-15 23:59:00 -0800") =
      some ⟨2026, 1, 15, 23, 59, 0, some (-28800)⟩ := by
  decide

/-- C5: the empty string, an absent input, "gibberish", and more generally
every input on which no format matches the stripped text verbatim and no
format matches the substring extracted by either fallback regex pattern,
yield `none` (Python `None`) rather than an exception. -/
theorem parse_date_not_parseable :
    _parse_date none = none ∧
    _parse_date (some "") = none ∧
    _parse_date (some "gibberish") = none ∧
    ∀ s : String,
      (∀ f ∈ pyFormats, f (pyStrip s) = none) →
      (∀ g : String, regexSearch1 s = some g → ∀ f ∈ pyFormats, f g = none) →
      (∀ g : String, regexSearch2 s = some g → ∀ f ∈ pyFormats, f g = none) →
      _parse_date (some s) = none := by
  refine ⟨by decide, by decide, by decide, ?_⟩
  intro s h0 h1 h2
  simp only [_parse_date]
  unfold _parse_date_str
  by_cases hs : s = ""
  · simp [hs]
  · rw [if_neg hs, List.findSome?_eq_none_iff.mpr h0]
    apply List.findSome?_eq_none_iff.mpr
    intro srch hsrch
    rcases (by simpa using hsrch : srch = regexSearch1 ∨ srch = regexSearch2) with h | h <;>
      subst h
    · cases hr1 : regexSearch1 s with
      | none => rfl
      | some g1 => exact List.findSome?_eq_none_iff.mpr (h1 g1 hr1)
    · cases hr2 : regexSearch2 s with
      | none => rfl
      | some g2 => exact List.findSome?_eq_none_iff.mpr (h2 g2 hr2)

/-- Witness for C5 at the concrete input "qq". -/
theorem parse_date_not_parseable_witness : _parse_date (some "qq") = none := by
  have h1 : ∀ g : String, regexSearch1 "qq" = some g → ∀ f ∈ pyFormats, f g = none := by
    intro g hg
    rw [show regexSearch1 "qq" = none from by decide] at hg
    exact Option.noConfusion hg
  have h2 : ∀ g : String, regexSearch2 "qq" = some g → ∀ f ∈ pyFormats, f g = none := by
    intro g hg
    rw [show regexSearch2 "qq" = none from by decide] at hg
    exact Option.noConfusion hg
  exact parse_date_not_parseable.2.2.2 "qq" (by decide) h1 h2

/-- C4: `_parse_date` tries a fixed ordered list of seven format patterns and
returns the result of the first pattern that parses the (stripped) input,
short-circuiting past the later patterns; an input matching several patterns
resolves deterministically to the earliest. -/
theorem parse_date_first_format :
    pyFormats.length = 7 ∧
    ∀ (s : String) (i : Nat) (hi : i < pyFormats.length) (d : DateTime),
      s ≠ "" →
      (pyFormats.get ⟨i, hi⟩) (pyStrip s) = some d →
      (∀ j (hj : j < pyFormats.length), j < i →
        (pyFormats.get ⟨j, hj⟩) (pyStrip s) = none) →
      _parse_date (some s) = some d := by
  refine ⟨rfl, ?_⟩
  intro s i hi d hs hget hprev
  simp only [_parse_date]
  unfold _parse_date_str
  rw [if_neg hs, findSome?_eq_of_first (fun f => f (pyStrip s)) pyFormats i hi d hget hprev]

/-- Witness for C4: "May 15, 2026 11:59 PM" parses under both the third
format (`%b`, abbreviated month) and the fifth (`%B`, full month name, since
"May" is both); the result is that of the earlier one. -/
theorem parse_date_first_format_witness :
    _parse_date (some "May 15, 2026 11:59 PM") = some ⟨2026, 5, 15, 23, 59, 0, none⟩ ∧
    (pyFormats.get ⟨2, by decide⟩) (pyStrip "May 15, 2026 11:59 PM") =
      some ⟨2026, 5, 15, 23, 59, 0, none⟩ ∧
    (pyFormats.get ⟨4, by decide⟩) (pyStrip "May 15, 2026 11:59 PM") =
      some ⟨2026, 5, 15, 23, 59, 0, none⟩ := by
  refine ⟨?_, by decide, by decide⟩
  refine parse_date_first_format.2 "May 15, 2026 11:59 PM" 2 (by decide) _
    (by decide) (by decide) ?_
  intro j hj hj2
  rcases (by omega : j = 0 ∨ j = 1) with h | h <;> subst h
  · show fmtIsoTz (pyStrip "May 15, 2026 11:59 PM") = none
    decide
  · show fmtIso (pyStrip "May 15, 2026 11:59 PM") = none
    decide

/-! ## Claims about the calendar reconciler -/

/-- C2: an unparseable due date makes `create_or_update_event` return the
skip outcome (`None`) with the calendar unchanged and zero remote calendar
operations issued — for any fault behaviour of the remote service, since it
is never contacted: the unparseable check precedes the lookup. -/
theorem skip_unparseable_no_remote_calls (sv : ServiceFaults)
    (title s description location : String) (cal : CalState)
    (h : _parse_date (some s) = none) :
    create_or_update_event sv title s description location cal = .ok (none, cal, []) := by
  unfold create_or_update_event
  rw [h]

/-- Witness for C2 at the concrete unparseable input "gibberish". -/
theorem skip_unparseable_no_remote_calls_witness :
    _parse_date (some "gibberish") = none ∧
    create_or_update_event noFaults "HW 1 - CS 101" "gibberish" "" "" ⟨[], 0⟩ =
      .ok (none, ⟨[], 0⟩, []) :=
  ⟨by decide,
   skip_unparseable_no_remote_calls noFaults "HW 1 - CS 101" "gibberish" "" "" ⟨[], 0⟩
     (by decide)⟩

theorem find_event_noFaults (title : String) (cal : CalState) :
    find_event noFaults title cal =
      (((cal.events.filter (fuzzyMatch title)).take 10).find? (fun e => e.summary == title),
       [.listCall title]) := rfl

theorem find_event_none_of_no_title (title : String) (cal : CalState)
    (hno : ∀ e ∈ cal.events, e.summary ≠ title) :
    find_event noFaults title cal = (none, [.listCall title]) := by
  rw [find_event_noFaults]
  rw [List.find?_eq_none.mpr
    (fun x hx => by simp [hno x (List.mem_of_mem_filter (List.mem_of_mem_take hx))])]

/-- C1 (amended): reconciling a title twice against a calendar that contains
no event with that title yields `created` then `updated` (whether or not the
two timestamps agree), and afterwards the calendar contains exactly one event
whose summary is the title, with start and end both equal to the second
timestamp — provided fewer than 10 events of the initial calendar match the
fuzzy title query (so that the second lookup's 10-result window reaches the
newly created event) and the existing event ids are below the allocator
counter. -/
theorem reconcile_twice_created_then_updated
    (title description s1 s2 : String) (d1 d2 : DateTime) (cal : CalState)
    (hp1 : _parse_date (some s1) = some d1)
    (hp2 : _parse_date (some s2) = some d2)
    (hno : ∀ e ∈ cal.events, e.summary ≠ title)
    (hfew : (cal.events.filter (fuzzyMatch title)).length ≤ 9)
    (hids : ∀ e ∈ cal.events, e.eid < cal.nextId) :
    create_or_update_event noFaults title s1 description "" cal =
      .ok (some .created, insertEvent cal title description "" d1,
           [.listCall title, .insertCall]) ∧
    create_or_update_event noFaults title s2 description ""
        (insertEvent cal title description "" d1) =
      .ok (some .updated,
           updateEvent (insertEvent cal title description "" d1) cal.nextId
             title description "" d2,
           [.listCall title, .updateCall cal.nextId]) ∧
    updateEvent (insertEvent cal title description "" d1) cal.nextId
        title description "" d2 =
      ⟨cal.events ++ [⟨cal.nextId, title, description, d2, d2, none⟩], cal.nextId + 1⟩ ∧
    (cal.events ++ [(⟨cal.nextId, title, description, d2, d2, none⟩ : GEvent)]).filter
        (fun e => e.summary == title) =
      [⟨cal.nextId, title, description, d2, d2, none⟩] := by
  have hfe1 := find_event_none_of_no_title title cal hno
  have hnew1 : (insertEvent cal title description "" d1).events
      = cal.events ++ [⟨cal.nextId, title, description, d1, d1, none⟩] := by
    simp [insertEvent, locOpt]
  have hfuzzy1 : fuzzyMatch title (⟨cal.nextId, title, description, d1, d1, none⟩ : GEvent)
      = true := fuzzyMatch_of_summary_eq title _ rfl
  have hfilter1 : (insertEvent cal title description "" d1).events.filter (fuzzyMatch title)
      = cal.events.filter (fuzzyMatch title)
        ++ [⟨cal.nextId, title, description, d1, d1, none⟩] := by
    rw [hnew1, List.filter_append]
    simp [List.filter, hfuzzy1]
  have htake : ((insertEvent cal title description "" d1).events.filter
        (fuzzyMatch title)).take 10
      = cal.events.filter (fuzzyMatch title)
        ++ [⟨cal.nextId, title, description, d1, d1, none⟩] := by
    rw [hfilter1]
    apply List.take_of_length_le
    simp only [List.length_append, List.length_cons, List.length_nil]
    omega
  have hfind1 : (((insertEvent cal title description "" d1).events.filter
        (fuzzyMatch title)).take 10).find? (fun e => e.summary == title)
      = some ⟨cal.nextId, title, description, d1, d1, none⟩ := by
    rw [htake]
    apply find?_append_last
    · intro y hy
      simp [hno y (List.mem_of_mem_filter hy)]
    · simp
  have hfe2 : find_event noFaults title (insertEvent cal title description "" d1)
      = (some ⟨cal.nextId, title, description, d1, d1, none⟩, [.listCall title]) := by
    rw [find_event_noFaults, hfind1]
  refine ⟨?_, ?_, ?_, ?_⟩
  · unfold create_or_update_event
    rw [hp1, hfe1]
    rfl
  · unfold create_or_update_event
    rw [hp2, hfe2]
    rfl
  · unfold updateEvent
    rw [hnew1, List.map_append]
    rw [map_eq_self_of _ cal.events
      (fun e he => by simp [Nat.ne_of_lt (hids e he)])]
    simp [locOpt, insertEvent]
  · rw [List.filter_append,
      filter_eq_nil_of _ cal.events (fun x hx => by simp [hno x hx])]
    simp [List.filter]

/-- Witness for C1 (amended) on an initially empty calendar, with two
different parseable due-date texts. -/
theorem reconcile_twice_created_then_updated_witness :
    create_or_update_event noFaults "HW 1 - CS 101" "Jan 15, 2026 11:59 PM" "" "" ⟨[], 0⟩ =
      .ok (some .created,
           insertEvent ⟨[], 0⟩ "HW 1 - CS 101" "" "" ⟨2026, 1, 15, 23, 59, 0, none⟩,
           [.listCall "HW 1 - CS 101", .insertCall]) ∧
    create_or_update_event noFaults "HW 1 - CS 101" "2026-02-01T10:00:00" "" ""
        (insertEvent ⟨[], 0⟩ "HW 1 - CS 101" "" "" ⟨2026, 1, 15, 23, 59, 0, none⟩) =
      .ok (some .updated,
           updateEvent (insertEvent ⟨[], 0⟩ "HW 1 - CS 101" "" "" ⟨2026, 1, 15, 23, 59, 0, none⟩)
             0 "HW 1 - CS 101" "" "" ⟨2026, 2, 1, 10, 0, 0, none⟩,
           [.listCall "HW 1 - CS 101", .updateCall 0]) ∧
    updateEvent (insertEvent ⟨[], 0⟩ "HW 1 - CS 101" "" "" ⟨2026, 1, 15, 23, 59, 0, none⟩)
        0 "HW 1 - CS 101" "" "" ⟨2026, 2, 1, 10, 0, 0, none⟩ =
      ⟨[⟨0, "HW 1 - CS 101", "", ⟨2026, 2, 1, 10, 0, 0, none⟩, ⟨2026, 2, 1, 10, 0, 0, none⟩, none⟩], 1⟩ ∧
    ([(⟨0, "HW 1 - CS 101", "", ⟨2026, 2, 1, 10, 0, 0, none⟩, ⟨2026, 2, 1, 10, 0, 0, none⟩,
        none⟩ : GEvent)].filter (fun e => e.summary == "HW 1 - CS 101")) =
      [⟨0, "HW 1 - CS 101", "", ⟨2026, 2, 1, 10, 0, 0, none⟩, ⟨2026, 2, 1, 10, 0, 0, none⟩, none⟩] := by
  have h := reconcile_twice_created_then_updated "HW 1 - CS 101" "" "Jan 15, 2026 11:59 PM"
    "2026-02-01T10:00:00" ⟨2026, 1, 15, 23, 59, 0, none⟩ ⟨2026, 2, 1, 10, 0, 0, none⟩ ⟨[], 0⟩
    (by decide) (by decide) (by simp) (by decide) (by simp)
  exact ⟨h.1, h.2.1, h.2.2.1, h.2.2.2⟩

/-- An instant used for the events populating concrete counterexample
calendars. -/
def dtJan : DateTime := ⟨2026, 1, 1, 0, 0, 0, none⟩

/-- A calendar holding ten events whose summaries all contain "T" but none of
which is exactly "T". -/
def calTen : CalState :=
  ⟨[⟨0, "T0", "", dtJan, dtJan, none⟩, ⟨1, "T1", "", dtJan, dtJan, none⟩,
    ⟨2, "T2", "", dtJan, dtJan, none⟩, ⟨3, "T3", "", dtJan, dtJan, none⟩,
    ⟨4, "T4", "", dtJan, dtJan, none⟩, ⟨5, "T5", "", dtJan, dtJan, none⟩,
    ⟨6, "T6", "", dtJan, dtJan, none⟩, ⟨7, "T7", "", dtJan, dtJan, none⟩,
    ⟨8, "T8", "", dtJan, dtJan, none⟩, ⟨9, "T9", "", dtJan, dtJan, none⟩], 10⟩

/-- C1, counterexample to the claim as stated: `calTen` contains no event
titled "T", yet reconciling "T" twice yields `created` both times (the second
lookup's 10-result window is filled by the ten fuzzily matching events, so
the event created by the first call is not seen) and leaves two events with
summary "T". -/
theorem reconcile_twice_counterexample :
    calTen.events.all (fun e => !(e.summary == "T")) = true ∧
    resultAction (create_or_update_event noFaults "T" "2026-01-15T23:59:00" "" "" calTen) =
      some .created ∧
    resultAction (create_or_update_event noFaults "T" "2026-01-15T23:59:00" "" ""
        (resultCal calTen
          (create_or_update_event noFaults "T" "2026-01-15T23:59:00" "" "" calTen))) =
      some .created ∧
    ((resultCal calTen
        (create_or_update_event noFaults "T" "2026-01-15T23:59:00" "" ""
          (resultCal calTen
            (create_or_update_event noFaults "T" "2026-01-15T23:59:00" "" "" calTen)))).events.filter
        (fun e => e.summary == "T")).length = 2 := by
  decide

/-- C3: when an event with exactly the given title exists in the calendar but
is not among the first 10 results of the fuzzy query, `find_event` returns
`none` and `create_or_update_event` inserts a fresh event, leaving at least
two events with that title. -/
theorem find_event_first_ten_duplicate
    (cal : CalState) (title description s : String) (d : DateTime)
    (hparse : _parse_date (some s) = some d)
    (hexists : ∃ e ∈ cal.events, e.summary = title)
    (hnotin : ∀ e ∈ (cal.events.filter (fuzzyMatch title)).take 10, e.summary ≠ title) :
    (find_event noFaults title cal).1 = none ∧
    create_or_update_event noFaults title s description "" cal =
      .ok (some .created, insertEvent cal title description "" d,
           [.listCall title, .insertCall]) ∧
    2 ≤ ((insertEvent cal title description "" d).events.filter
          (fun e => e.summary == title)).length := by
  have hfind : ((cal.events.filter (fuzzyMatch title)).take 10).find?
      (fun e => e.summary == title) = none :=
    List.find?_eq_none.mpr (fun x hx => by simp [hnotin x hx])
  have hfe : find_event noFaults title cal = (none, [.listCall title]) := by
    rw [find_event_noFaults, hfind]
  refine ⟨by rw [hfe], ?_, ?_⟩
  · unfold create_or_update_event
    rw [hparse, hfe]
    rfl
  · obtain ⟨e, he, hes⟩ := hexists
    have hsplit : (insertEvent cal title description "" d).events.filter
        (fun e => e.summary == title)
      = cal.events.filter (fun e => e.summary == title)
        ++ [⟨cal.nextId, title, description, d, d, none⟩] := by
      simp [insertEvent, locOpt, List.filter_append, List.filter]
    rw [hsplit]
    have hmem : e ∈ cal.events.filter (fun e => e.summary == title) :=
      List.mem_filter.mpr ⟨he, by simp [hes]⟩
    have hpos : 0 < (cal.events.filter (fun e => e.summary == title)).length :=
      List.length_pos_of_mem hmem
    simp only [List.length_append, List.length_cons, List.length_nil]
    omega

/-- A calendar like `calTen` but additionally holding, in eleventh position,
an event titled exactly "T". -/
def calEleven : CalState :=
  ⟨calTen.events ++ [⟨10, "T", "", dtJan, dtJan, none⟩], 11⟩

/-- Witness for C3 on `calEleven`: the exact-title event exists but sits
outside the 10-result window. -/
theorem find_event_first_ten_duplicate_witness :
    (find_event noFaults "T" calEleven).1 = none ∧
    create_or_update_event noFaults "T" "2026-03-01T10:00:00" "" "" calEleven =
      .ok (some .created, insertEvent calEleven "T" "" "" ⟨2026, 3, 1, 10, 0, 0, none⟩,
           [.listCall "T", .insertCall]) ∧
    2 ≤ ((insertEvent calEleven "T" "" "" ⟨2026, 3, 1, 10, 0, 0, none⟩).events.filter
          (fun e => e.summary == "T")).length :=
  find_event_first_ten_duplicate calEleven "T" "" "2026-03-01T10:00:00"
    ⟨2026, 3, 1, 10, 0, 0, none⟩ (by decide)
    ⟨⟨10, "T", "", dtJan, dtJan, none⟩, by decide, rfl⟩ (by decide)

/-- C6: an exception raised by the remote search is caught inside
`find_event` (a warning effect is emitted and `none` returned), so
`create_or_update_event` proceeds as if no event existed and attempts the
insert; an exception raised by the insert or update call itself is not caught
and propagates to the caller as `.error`. -/
theorem lookup_error_caught_insert_update_propagate
    (title description s : String) (d : DateTime) (cal : CalState)
    (hparse : _parse_date (some s) = some d) :
    (∀ sv : ServiceFaults, sv.listRaises = true →
       find_event sv title cal = (none, [.listCall title, .warnSearch])) ∧
    (∀ sv : ServiceFaults, sv.listRaises = true → sv.insertRaises = false →
       create_or_update_event sv title s description "" cal =
         .ok (some .created, insertEvent cal title description "" d,
              [.listCall title, .warnSearch, .insertCall])) ∧
    (∀ sv : ServiceFaults, sv.listRaises = true → sv.insertRaises = true →
       create_or_update_event sv title s description "" cal = .error ()) ∧
    (∀ (sv : ServiceFaults) (cal2 : CalState) (e : GEvent) (tr : List Effect),
       sv.updateRaises = true → find_event sv title cal2 = (some e, tr) →
       create_or_update_event sv title s description "" cal2 = .error ()) := by
  have hcatch : ∀ sv : ServiceFaults, sv.listRaises = true →
      find_event sv title cal = (none, [.listCall title, .warnSearch]) := by
    intro sv hl
    unfold find_event
    rw [hl]
    rfl
  refine ⟨hcatch, ?_, ?_, ?_⟩
  · intro sv hl hi
    unfold create_or_update_event
    rw [hparse, hcatch sv hl, hi]
    rfl
  · intro sv hl hi
    unfold create_or_update_event
    rw [hparse, hcatch sv hl, hi]
    rfl
  · intro sv cal2 e tr hu hfe
    unfold create_or_update_event
    rw [hparse, hfe, hu]
    rfl

/-- Witness for C6 at concrete fault configurations and calendars. -/
theorem lookup_error_caught_insert_update_propagate_witness :
    find_event ⟨true, false, false⟩ "HW 2 - CS 101" ⟨[], 0⟩ =
      (none, [.listCall "HW 2 - CS 101", .warnSearch]) ∧
    create_or_update_event ⟨true, false, false⟩ "HW 2 - CS 101" "2026-01-15T23:59:00" "" ""
        ⟨[], 0⟩ =
      .ok (some .created,
           insertEvent ⟨[], 0⟩ "HW 2 - CS 101" "" "" ⟨2026, 1, 15, 23, 59, 0, none⟩,
           [.listCall "HW 2 - CS 101", .warnSearch, .insertCall]) ∧
    create_or_update_event ⟨true, true, false⟩ "HW 2 - CS 101" "2026-01-15T23:59:00" "" ""
        ⟨[], 0⟩ = .error () ∧
    create_or_update_event ⟨false, false, true⟩ "HW 2 - CS 101" "2026-01-15T23:59:00" "" ""
        ⟨[⟨0, "HW 2 - CS 101", "", dtJan, dtJan, none⟩], 1⟩ = .error () := by
  have h := lookup_error_caught_insert_update_propagate "HW 2 - CS 101" ""
    "2026-01-15T23:59:00" ⟨2026, 1, 15, 23, 59, 0, none⟩ ⟨[], 0⟩ (by decide)
  exact ⟨h.1 ⟨true, false, false⟩ rfl, h.2.1 ⟨true, false, false⟩ rfl rfl,
         h.2.2.1 ⟨true, true, false⟩ rfl rfl,
         h.2.2.2 ⟨false, false, true⟩ ⟨[⟨0, "HW 2 - CS 101", "", dtJan, dtJan, none⟩], 1⟩
           ⟨0, "HW 2 - CS 101", "", dtJan, dtJan, none⟩ [.listCall "HW 2 - CS 101"] rfl
           (by decide)⟩

/-! ## Claims about the HTML extractor -/

theorem rowToAssignment_eq_of_cells (row : Html) (c0 c1 c2 : Html) (rest : List Html)
    (hc : rowCells row = c0 :: c1 :: c2 :: rest) :
    rowToAssignment row =
      rowAssignFrom row (c0 :: c1 :: c2 :: rest) (c0.findElem (fun e => e.tag == "a")) := by
  unfold rowToAssignment
  rw [hc]

theorem rowToAssignment_due (row : Html) (a : Assignment)
    (h : rowToAssignment row = some a) :
    a.due_date = dueDateOf row (rowCells row) := by
  rcases hc : rowCells row with _ | ⟨c0, _ | ⟨c1, _ | ⟨c2, rest⟩⟩⟩
  · unfold rowToAssignment at h; rw [hc] at h; exact Option.noConfusion h
  · unfold rowToAssignment at h; rw [hc] at h; exact Option.noConfusion h
  · unfold rowToAssignment at h; rw [hc] at h; exact Option.noConfusion h
  · rw [rowToAssignment_eq_of_cells row c0 c1 c2 rest hc] at h
    cases hl : c0.findElem (fun e => e.tag == "a") with
    | none => rw [hl] at h; exact Option.noConfusion h
    | some nl =>
      rw [hl] at h
      have h2 : (⟨nl.getTextStrip, searchAssignmentId ((nl.getAttr "href").getD "").data,
          dueDateOf row (c0 :: c1 :: c2 :: rest),
          if (nl.getAttr "href").getD "" = "" then none
          else some (GRADESCOPE_BASE_URL ++ (nl.getAttr "href").getD "")⟩ : Assignment) = a :=
        Option.some.inj h
      subst h2
      rfl

/-- C7 (amended): in a row that yields an assignment, the due-date text is
taken from the earliest cell after the first whose text contains a
time-of-day pattern or the substring "due" case-insensitively; a `<time>`
element in the row always overrides that heuristic result, with its
`datetime` attribute when the attribute is truthy (present and non-empty),
else its visible text. -/
theorem due_date_time_overrides_heuristic (row : Html) (a : Assignment)
    (ha : rowToAssignment row = some a) :
    (∀ te : Html, row.findElem (fun e => e.tag == "time") = some te →
       a.due_date = some (match te.getAttr "datetime" with
                          | some v => if v = "" then te.getTextStrip else v
                          | none => te.getTextStrip)) ∧
    (row.findElem (fun e => e.tag == "time") = none →
       ∀ (c0 : Html) (tail : List Html), rowCells row = c0 :: tail →
         ∀ (j : Nat) (hj : j < tail.length) (t : String),
           heurSome (tail.get ⟨j, hj⟩) = some t →
           (∀ k (hk : k < tail.length), k < j → heurSome (tail.get ⟨k, hk⟩) = none) →
           a.due_date = some t) := by
  have hdue : a.due_date = dueDateOf row (rowCells row) := rowToAssignment_due row a ha
  constructor
  · intro te hte
    rw [hdue]
    unfold dueDateOf
    rw [hte]
  · intro hnone c0 tail hc j hj t hjt hprev
    rw [hdue, hc]
    unfold dueDateOf
    rw [hnone]
    show tail.findSome? heurSome = some t
    exact findSome?_eq_of_first heurSome tail j hj t hjt hprev

/-- C7, counterexample to the claim as stated: here the `<time>` element
carries a `datetime` attribute (present but empty), yet the selected due-date
text is the element's visible text "5:00 PM" rather than the attribute value
— Python's `or` falls through on a present-but-empty attribute too, so "when
the attribute is absent" does not capture when the visible text is used.  The
heuristic candidate "Due 11:59 PM" is overridden either way. -/
theorem due_date_time_overrides_heuristic_counterexample :
    (rowToAssignment (.elem "tr" [("role", "row")] [
        .elem "th" [] [.elem "a" [("href", "/courses/1/assignments/7")] [.text "HW 1"]],
        .elem "td" [] [.text "Due 11:59 PM"],
        .elem "td" [] [.elem "time" [("datetime", "")] [.text "5:00 PM"]]])).map
        Assignment.due_date = some (some "5:00 PM") ∧
    (Html.elem "time" [("datetime", "")] [.text "5:00 PM"]).getAttr "datetime" = some "" ∧
    heuristicDue (rowCells (.elem "tr" [("role", "row")] [
        .elem "th" [] [.elem "a" [("href", "/courses/1/assignments/7")] [.text "HW 1"]],
        .elem "td" [] [.text "Due 11:59 PM"],
        .elem "td" [] [.elem "time" [("datetime", "")] [.text "5:00 PM"]]])) =
      some "Due 11:59 PM" :=
  ⟨rfl, rfl, rfl⟩

/-- A row whose third cell holds a `<time>` element with a truthy machine
attribute next to heuristic-matching text. -/
def rowTimeOverride : Html :=
  .elem "tr" [("role", "row")] [
    .elem "th" [] [.elem "a" [("href", "/courses/1/assignments/8")] [.text "HW 2"]],
    .elem "td" [] [.text "Status"],
    .elem "td" [] [.elem "time" [("datetime", "2026-01-15T23:59:00")] [.text "Jan 15"],
                   .text "Due 9:00 AM"]]

/-- A row with no `<time>` element whose third cell is the first heuristic
match. -/
def rowHeurOnly : Html :=
  .elem "tr" [("role", "row")] [
    .elem "th" [] [.elem "a" [] [.text "HW 3"]],
    .elem "td" [] [.text "Submitted"],
    .elem "td" [] [.text "Due 11:59 PM"]]

/-- Witness for C7 (amended) on `rowTimeOverride` (the time element wins over
the heuristic candidate) and on `rowHeurOnly` (with no time element, the
earliest matching later cell wins). -/
theorem due_date_time_overrides_heuristic_witness :
    (⟨"HW 2", some "8", some "2026-01-15T23:59:00",
      some "https://www.gradescope.com/courses/1/assignments/8"⟩ : Assignment).due_date =
      some "2026-01-15T23:59:00" ∧
    (⟨"HW 3", none, some "Due 11:59 PM", none⟩ : Assignment).due_date =
      some "Due 11:59 PM" := by
  constructor
  · exact (due_date_time_overrides_heuristic rowTimeOverride
      ⟨"HW 2", some "8", some "2026-01-15T23:59:00",
       some "https://www.gradescope.com/courses/1/assignments/8"⟩ (by decide)).1
      (.elem "time" [("datetime", "2026-01-15T23:59:00")] [.text "Jan 15"]) rfl
  · refine (due_date_time_overrides_heuristic rowHeurOnly
      ⟨"HW 3", none, some "Due 11:59 PM", none⟩ (by decide)).2 rfl
      (.elem "th" [] [.elem "a" [] [.text "HW 3"]])
      [.elem "td" [] [.text "Submitted"], .elem "td" [] [.text "Due 11:59 PM"]]
      rfl 1 (by decide) "Due 11:59 PM" (by decide) ?_
    intro k hk hk1
    have hk0 : k = 0 := by omega
    subst hk0
    show heurSome (.elem "td" [] [.text "Submitted"]) = none
    decide

/-- C8: extraction degrades without raising: a course link with no full-name
div yields `full_name = short_name`, one with no heading yields the
placeholder short name; an assignment row with fewer than three cells, or
whose first cell contains no link, maps to `none` and is thereby excluded
from the sequence `get_assignments` returns, which keeps exactly the
non-skipped rows. -/
theorem extraction_degrades :
    (∀ link : Html, link.findElem isNameDiv = none →
       (extractCourse link).full_name = (extractCourse link).short_name) ∧
    (∀ link : Html, link.findElem isHeadingElem = none →
       (extractCourse link).short_name = "Unknown Course") ∧
    (∀ row : Html, (rowCells row).length < 3 → rowToAssignment row = none) ∧
    (∀ (row c0 : Html) (tail : List Html), rowCells row = c0 :: tail →
       c0.findElem (fun e => e.tag == "a") = none → rowToAssignment row = none) ∧
    (∀ soup : Html, get_assignments soup = (trRows soup).filterMap rowToAssignment) := by
  refine ⟨?_, ?_, ?_, ?_, fun _ => rfl⟩
  · intro link h
    simp [extractCourse, h]
  · intro link h
    simp [extractCourse, h]
  · intro row hlen
    rcases hc : rowCells row with _ | ⟨a1, _ | ⟨a2, _ | ⟨a3, r⟩⟩⟩
    · unfold rowToAssignment; rw [hc]
    · unfold rowToAssignment; rw [hc]
    · unfold rowToAssignment; rw [hc]
    · rw [hc] at hlen
      simp [List.length_cons] at hlen
      omega
  · intro row c0 tail hc hl
    rcases tail with _ | ⟨t1, _ | ⟨t2, r⟩⟩
    · unfold rowToAssignment; rw [hc]
    · unfold rowToAssignment; rw [hc]
    · rw [rowToAssignment_eq_of_cells row c0 t1 t2 r hc, hl]
      rfl

/-- A course link with a heading but no class-matched name div. -/
def linkNoFullName : Html :=
  .elem "a" [("href", "/courses/55")] [.elem "h3" [] [.text "CS 101"]]

/-- A course link with neither heading nor name div. -/
def linkBare : Html := .elem "a" [("href", "/courses/56")] [.text "plain"]

/-- A row with only two cells. -/
def rowTooFewCells : Html :=
  .elem "tr" [("role", "row")] [.elem "th" [] [.text "x"], .elem "td" [] [.text "y"]]

/-- A row with three cells whose first cell holds no link. -/
def rowNoLink : Html :=
  .elem "tr" [("role", "row")] [.elem "th" [] [.text "x"],
    .elem "td" [] [.text "y"], .elem "td" [] [.text "z"]]

/-- A course page holding one good row and one row without a link. -/
def soupMixedRows : Html :=
  .elem "table" [] [
    .elem "tr" [("role", "row")] [
      .elem "th" [] [.elem "a" [("href", "/courses/1/assignments/3")] [.text "HW"]],
      .elem "td" [] [.text "s"], .elem "td" [] [.text "Due 1:00 PM"]],
    rowNoLink]

/-- Witness for C8 at concrete degenerate inputs. -/
theorem extraction_degrades_witness :
    (extractCourse linkNoFullName).full_name = (extractCourse linkNoFullName).short_name ∧
    (extractCourse linkBare).short_name = "Unknown Course" ∧
    rowToAssignment rowTooFewCells = none ∧
    rowToAssignment rowNoLink = none ∧
    get_assignments soupMixedRows = (trRows soupMixedRows).filterMap rowToAssignment :=
  ⟨extraction_degrades.1 linkNoFullName rfl,
   extraction_degrades.2.1 linkBare rfl,
   extraction_degrades.2.2.1 rowTooFewCells (by decide),
   extraction_degrades.2.2.2.1 rowNoLink (.elem "th" [] [.text "x"])
     [.elem "td" [] [.text "y"], .elem "td" [] [.text "z"]] rfl rfl,
   extraction_degrades.2.2.2.2 soupMixedRows⟩

/-- C10: a `<time>` element whose `datetime` attribute is absent and whose
visible text is empty forces the extracted due-date text to the empty string
even when the heuristic cell scan had found a candidate; `main` then counts
the assignment as skipped ("no due date") and never calls the reconciler —
no remote effect is recorded and the calendar is untouched. -/
theorem empty_time_element_skips (row : Html) (a : Assignment) (te : Html)
    (ha : rowToAssignment row = some a)
    (hte : row.findElem (fun e => e.tag == "time") = some te)
    (hattr : te.getAttr "datetime" = none)
    (htext : te.getTextStrip = "")
    (hheur : (heuristicDue (rowCells row)).isSome = true)
    (sv : ServiceFaults) (course : Course) (cal : CalState) :
    a.due_date = some "" ∧
    processAssignment sv course a cal = .ok (.skippedNoDue, cal, []) := by
  have hdue : a.due_date = dueDateOf row (rowCells row) := rowToAssignment_due row a ha
  have hempty : a.due_date = some "" := by
    rw [hdue]
    unfold dueDateOf
    rw [hte]
    show (some (match te.getAttr "datetime" with
      | some v => if v = "" then te.getTextStrip else v
      | none => te.getTextStrip) : Option String) = some ""
    rw [hattr, htext]
  refine ⟨hempty, ?_⟩
  unfold processAssignment
  rw [hempty]
  rfl

/-- A row whose second cell is a heuristic due-date candidate but whose third
cell holds an empty `<time>` element. -/
def rowEmptyTime : Html :=
  .elem "tr" [("role", "row")] [
    .elem "th" [] [.elem "a" [("href", "/courses/1/assignments/9")] [.text "Quiz 1"]],
    .elem "td" [] [.text "Due 11:59 PM"],
    .elem "td" [] [.elem "time" [] []]]

/-- Witness for C10 on `rowEmptyTime`. -/
theorem empty_time_element_skips_witness :
    (⟨"Quiz 1", some "9", some "",
      some "https://www.gradescope.com/courses/1/assignments/9"⟩ : Assignment).due_date =
      some "" ∧
    processAssignment noFaults ⟨"1", "CS 101", "Intro to CS", "u"⟩
      ⟨"Quiz 1", some "9", some "",
       some "https://www.gradescope.com/courses/1/assignments/9"⟩ ⟨[], 0⟩ =
      .ok (.skippedNoDue, ⟨[], 0⟩, []) :=
  empty_time_element_skips rowEmptyTime
    ⟨"Quiz 1", some "9", some "", some "https://www.gradescope.com/courses/1/assignments/9"⟩
    (.elem "time" [] []) (by decide) rfl rfl rfl (by decide)
    noFaults ⟨"1", "CS 101", "Intro to CS", "u"⟩ ⟨[], 0⟩
